import Mathlib

/-!
Verification of the NoiseMapper incremental clustering core.

The definitions below are shallow embeddings of:
  - the PostgreSQL trigger function `aggregate_reports_to_hotspots` and the
    table constraints in `supabase-schema.sql`;
  - `locationUtils.calculateDistance` and `audioUtils.calculateDbFromAudio`
    in `lib/utils.ts`;
  - `hotspots.getAll` in `lib/supabase.ts`.
Numeric columns (FLOAT8) are modelled over the rationals where the code is
exact rational arithmetic, and over the reals where it uses transcendental
functions.  Geodesic distance (PostGIS `ST_Distance` on geography values) is
not part of the source; the trigger model is parametric in a distance
function `d` on coordinates, and each theorem states the metric facts it
needs about `d` as explicit hypotheses.  The `GEOGRAPHY(POINT, 4326)`
generated `location` column is modelled including PostGIS's
geometry-to-geography range coercion (`lwgeom_force_geodetic` with
`latitude_degrees_normalize` and `longitude_degrees_normalize`), which
silently moves out-of-range coordinates into [-90, 90] x [-180, 180].
-/

/-- A geographic coordinate, as the pair stored in the `location` columns. -/
structure Coord where
  lat : ℚ
  lon : ℚ
deriving DecidableEq

/-- A row of the `reports` table, restricted to the columns that the
validation constraints and the aggregation trigger read. -/
structure Report where
  latitude : ℚ
  longitude : ℚ
  noise_db : ℚ
  noise_type : String
deriving DecidableEq

/-- Rounding to the nearest integer with ties to even, as used by the IEEE
754 `remainder` operation. -/
def roundHalfEven (q : ℚ) : ℤ :=
  if q - (⌊q⌋ : ℚ) < 1/2 then ⌊q⌋
  else if (1 : ℚ)/2 < q - (⌊q⌋ : ℚ) then ⌊q⌋ + 1
  else if ⌊q⌋ % 2 = 0 then ⌊q⌋ else ⌊q⌋ + 1

/-- The IEEE 754 `remainder(x, y)`: x minus y times the integer quotient
rounded to nearest, ties to even. -/
def ieeeRem (x y : ℚ) : ℚ := x - y * (roundHalfEven (x / y) : ℚ)

/-- PostGIS `longitude_degrees_normalize`: the coercion of a longitude
into [-180, 180] applied by the geometry-to-geography cast. -/
def longitudeDegreesNormalize (lon0 : ℚ) : ℚ :=
  if lon0 = -180 then 180
  else if lon0 = -360 then 0
  else
    let x1 := if 360 < lon0 then ieeeRem lon0 360 else lon0
    let x2 := if x1 < -360 then ieeeRem x1 (-360) else x1
    let x3 := if 180 < x2 then -360 + x2 else x2
    if x3 < -180 then 360 + x3 else x3

/-- PostGIS `latitude_degrees_normalize`: the coercion of a latitude into
[-90, 90] applied by the geometry-to-geography cast. -/
def latitudeDegreesNormalize (lat0 : ℚ) : ℚ :=
  let y1 := if 360 < lat0 then ieeeRem lat0 360 else lat0
  let y2 := if y1 < -360 then ieeeRem y1 (-360) else y1
  let y3 := if 180 < y2 then 180 - y2 else y2
  let y4 := if y3 < -180 then -180 - y3 else y3
  let y5 := if 90 < y4 then 180 - y4 else y4
  if y5 < -90 then -180 - y5 else y5

/-- The point stored by a `GEOGRAPHY(POINT, 4326)` column for a submitted
(latitude, longitude) pair: PostGIS `ptarray_force_geodetic` leaves an
in-range point untouched and otherwise coerces both coordinates into
range with the normalize functions above (emitting only a NOTICE). -/
def storedPoint (la lo : ℚ) : Coord :=
  if lo < -180 ∨ 180 < lo ∨ la < -90 ∨ 90 < la then
    ⟨latitudeDegreesNormalize la, longitudeDegreesNormalize lo⟩
  else ⟨la, lo⟩

/-- The generated `location` column of a report: the geography point built
from its longitude and latitude, range-coerced by the
geometry-to-geography cast. -/
def Report.location (r : Report) : Coord := storedPoint r.latitude r.longitude

/-- A row of the `hotspots` table. Timestamps are abstracted as naturals. -/
structure Hotspot where
  id : ℕ
  location : Coord
  avg_noise_db : ℚ
  report_count : ℕ
  created_at : ℕ
  updated_at : ℕ
deriving DecidableEq

/-- The mutable state the trigger operates on: the `hotspots` table,
together with the id supply for newly inserted rows. -/
structure State where
  hotspots : List Hotspot
  nextId : ℕ
deriving DecidableEq

/-- The `cluster_radius` constant declared in `aggregate_reports_to_hotspots`. -/
def cluster_radius : ℚ := 1/1000

/-- A concrete distance-like function on coordinates (squared planar
distance), used to instantiate the parametric trigger model on concrete
inputs. -/
def dSq (a b : Coord) : ℚ :=
  (a.lat - b.lat) * (a.lat - b.lat) + (a.lon - b.lon) * (a.lon - b.lon)

/-- Selection of the row minimising `d ⬝ p` from a candidate list, keeping
the earlier row on exact ties: this realises `ORDER BY ST_Distance(location,
NEW.location) LIMIT 1`, whose tie order SQL leaves to table order. -/
def pickMin (d : Coord → Coord → ℚ) (p : Coord) :
    Option Hotspot → List Hotspot → Option Hotspot
  | acc, [] => acc
  | none, h :: t => pickMin d p (some h) t
  | some b, h :: t =>
      pickMin d p (some (if d h.location p < d b.location p then h else b)) t

/-- The `SELECT ... WHERE ST_DWithin(location, NEW.location, radius) ORDER BY
ST_Distance(location, NEW.location) LIMIT 1` query of the trigger:
inclusive radius filter, then closest row. -/
def findNearest (d : Coord → Coord → ℚ) (radius : ℚ)
    (hs : List Hotspot) (p : Coord) : Option Hotspot :=
  pickMin d p none (hs.filter fun h => decide (d h.location p ≤ radius))

/-- The `UPDATE hotspots SET ... WHERE id = hotspot_record.id` of the
trigger, applied to one row. -/
def absorbUpdate (hid : ℕ) (v : ℚ) (now : ℕ) (x : Hotspot) : Hotspot :=
  if x.id = hid then
    { x with
      avg_noise_db := (x.avg_noise_db * (x.report_count : ℚ) + v) / ((x.report_count : ℚ) + 1),
      report_count := x.report_count + 1,
      updated_at := now }
  else x

/-- The body of `aggregate_reports_to_hotspots`: find the nearest hotspot
within `cluster_radius` of the new report; update it if found, otherwise
insert a fresh hotspot at the report's position with count 1. -/
def aggregate (d : Coord → Coord → ℚ) (now : ℕ) (st : State) (r : Report) : State :=
  match findNearest d cluster_radius st.hotspots r.location with
  | some h => { st with hotspots := st.hotspots.map (absorbUpdate h.id r.noise_db now) }
  | none =>
      { hotspots := st.hotspots ++
          [{ id := st.nextId, location := r.location, avg_noise_db := r.noise_db,
             report_count := 1, created_at := now, updated_at := now }],
        nextId := st.nextId + 1 }

/-- Sequential firing of the trigger for a list of inserted reports, with a
monotone clock supplying the `NOW()` values. -/
def runReportsFrom (d : Coord → Coord → ℚ) : State → ℕ → List Report → State
  | st, _, [] => st
  | st, t, r :: rs => runReportsFrom d (aggregate d t st r) (t + 1) rs

/-- Firing the trigger for each report in order, starting from an empty
`hotspots` table. -/
def runReports (d : Coord → Coord → ℚ) (rs : List Report) : State :=
  runReportsFrom d ⟨[], 0⟩ 0 rs

/-- Feeding a present accumulator into the minimum selection always yields a
result. -/
lemma pickMin_some_isSome (d : Coord → Coord → ℚ) (p : Coord) :
    ∀ (l : List Hotspot) (b : Hotspot), ∃ h0, pickMin d p (some b) l = some h0 := by
  intro l
  induction l with
  | nil => intro b; exact ⟨b, rfl⟩
  | cons h t ih =>
      intro b
      simpa [pickMin] using ih (if d h.location p < d b.location p then h else b)

/-- The minimum selection returns an element of the candidate list or the
accumulator it was given. -/
lemma pickMin_mem (d : Coord → Coord → ℚ) (p : Coord) :
    ∀ (l : List Hotspot) (acc : Option Hotspot) (h0 : Hotspot),
      pickMin d p acc l = some h0 → acc = some h0 ∨ h0 ∈ l := by
  intro l
  induction l with
  | nil => intro acc h0 heq; simp [pickMin] at heq; exact Or.inl heq
  | cons h t ih =>
      intro acc h0 heq
      cases acc with
      | none =>
          rcases ih (some h) h0 (by simpa [pickMin] using heq) with hc | hc
          · exact Or.inr (by simp [Option.some.injEq] at hc; simp [hc])
          · exact Or.inr (List.mem_cons_of_mem _ hc)
      | some b =>
          rcases ih _ h0 (by simpa [pickMin] using heq) with hc | hc
          · by_cases hlt : d h.location p < d b.location p
            · simp [hlt] at hc; exact Or.inr (by simp [hc])
            · simp [hlt] at hc; exact Or.inl (by simp [hc])
          · exact Or.inr (List.mem_cons_of_mem _ hc)

/-- The minimum selection returns a row whose distance is no larger than the
distance of the accumulator and of every candidate. -/
lemma pickMin_min (d : Coord → Coord → ℚ) (p : Coord) :
    ∀ (l : List Hotspot) (acc : Option Hotspot) (h0 : Hotspot),
      pickMin d p acc l = some h0 →
        (∀ b, acc = some b → d h0.location p ≤ d b.location p) ∧
        (∀ x ∈ l, d h0.location p ≤ d x.location p) := by
  intro l
  induction l with
  | nil =>
      intro acc h0 heq
      refine ⟨fun b hb => ?_, by simp⟩
      simp [pickMin] at heq
      rw [hb] at heq
      simp at heq
      simp [heq]
  | cons h t ih =>
      intro acc h0 heq
      cases acc with
      | none =>
          obtain ⟨hacc, hlist⟩ := ih (some h) h0 (by simpa [pickMin] using heq)
          refine ⟨by simp, fun x hx => ?_⟩
          rcases List.mem_cons.mp hx with hx | hx
          · exact hx ▸ hacc h rfl
          · exact hlist x hx
      | some b =>
          obtain ⟨hacc, hlist⟩ := ih _ h0 (by simpa [pickMin] using heq)
          by_cases hlt : d h.location p < d b.location p
          · have hh := hacc h (by simp [hlt])
            refine ⟨fun c hc => ?_, fun x hx => ?_⟩
            · have : c = b := by simpa using hc.symm
              exact this ▸ le_trans hh (le_of_lt hlt)
            · rcases List.mem_cons.mp hx with hx | hx
              · exact hx ▸ hh
              · exact hlist x hx
          · have hb := hacc b (by simp [hlt])
            refine ⟨fun c hc => ?_, fun x hx => ?_⟩
            · have : c = b := by simpa using hc.symm
              exact this ▸ hb
            · rcases List.mem_cons.mp hx with hx | hx
              · exact hx ▸ le_trans hb (not_lt.mp hlt)
              · exact hlist x hx

/-- The nearest-hotspot query fails exactly when no hotspot lies within the
radius (the radius test `ST_DWithin` being inclusive). -/
lemma findNearest_eq_none_iff (d : Coord → Coord → ℚ) (radius : ℚ)
    (hs : List Hotspot) (p : Coord) :
    findNearest d radius hs p = none ↔ ∀ h ∈ hs, radius < d h.location p := by
  constructor
  · intro hnone h hmem
    by_contra hlt
    have hmemf : h ∈ hs.filter fun x => decide (d x.location p ≤ radius) := by
      simp [List.mem_filter, hmem, not_lt.mp hlt]
    rcases hq : hs.filter fun x => decide (d x.location p ≤ radius) with _ | ⟨a, t⟩
    · rw [hq] at hmemf; simp at hmemf
    · obtain ⟨h0, hh0⟩ := pickMin_some_isSome d p t a
      have : findNearest d radius hs p = some h0 := by
        simp [findNearest, hq, pickMin, hh0]
      rw [hnone] at this; exact Option.noConfusion this
  · intro hfar
    have hq : (hs.filter fun x => decide (d x.location p ≤ radius)) = [] := by
      rw [List.filter_eq_nil_iff]
      intro a ha
      simpa using not_le.mpr (hfar a ha)
    simp [findNearest, hq, pickMin]

/-- A successful nearest-hotspot query returns a stored hotspot that is
within the radius and at minimal distance among all in-radius hotspots. -/
lemma findNearest_eq_some (d : Coord → Coord → ℚ) (radius : ℚ)
    (hs : List Hotspot) (p : Coord) (h0 : Hotspot)
    (heq : findNearest d radius hs p = some h0) :
    h0 ∈ hs ∧ d h0.location p ≤ radius ∧
      ∀ x ∈ hs, d x.location p ≤ radius → d h0.location p ≤ d x.location p := by
  have hmem := pickMin_mem d p _ none h0 heq
  simp [List.mem_filter] at hmem
  refine ⟨hmem.1, hmem.2, fun x hx hxr => ?_⟩
  exact (pickMin_min d p _ none h0 heq).2 x (by simp [List.mem_filter, hx, hxr])

/-- C2: a report strictly farther than the cluster radius from every stored
hotspot centroid makes the trigger insert exactly one new hotspot, with
report count 1, average equal to the report's decibel value, and centroid
exactly the report's position. -/
theorem C2_far_report_founds_new_hotspot (d : Coord → Coord → ℚ) (now : ℕ)
    (st : State) (r : Report)
    (hfar : ∀ h ∈ st.hotspots, cluster_radius < d h.location r.location) :
    aggregate d now st r =
      { hotspots := st.hotspots ++
          [{ id := st.nextId, location := r.location, avg_noise_db := r.noise_db,
             report_count := 1, created_at := now, updated_at := now }],
        nextId := st.nextId + 1 } := by
  have hnone : findNearest d cluster_radius st.hotspots r.location = none :=
    (findNearest_eq_none_iff d cluster_radius st.hotspots r.location).mpr hfar
  simp [aggregate, hnone]

/-- Witness for C2 at a concrete store and report. -/
theorem C2_far_report_founds_new_hotspot_witness :
    (∀ h ∈ ([⟨0, ⟨1, 1⟩, 50, 1, 0, 0⟩] : List Hotspot),
        cluster_radius < dSq h.location (Report.location ⟨0, 0, 60, "traffic"⟩)) ∧
    aggregate dSq 7 ⟨[⟨0, ⟨1, 1⟩, 50, 1, 0, 0⟩], 1⟩ ⟨0, 0, 60, "traffic"⟩ =
      { hotspots := [⟨0, ⟨1, 1⟩, 50, 1, 0, 0⟩] ++
          [⟨1, Report.location ⟨0, 0, 60, "traffic"⟩, 60, 1, 7, 7⟩],
        nextId := 1 + 1 } :=
  ⟨by norm_num [dSq, cluster_radius, Report.location, storedPoint],
    C2_far_report_founds_new_hotspot dSq 7 ⟨[⟨0, ⟨1, 1⟩, 50, 1, 0, 0⟩], 1⟩
      ⟨0, 0, 60, "traffic"⟩
      (by norm_num [dSq, cluster_radius, Report.location, storedPoint])⟩

/-- C3: the radius test is inclusive. A report at distance exactly
`cluster_radius` from some stored hotspot, with no hotspot strictly closer,
is folded into an existing hotspot at exactly that distance, and no new
hotspot is created. -/
theorem C3_boundary_report_is_absorbed (d : Coord → Coord → ℚ) (now : ℕ)
    (st : State) (r : Report) (h : Hotspot)
    (hmem : h ∈ st.hotspots)
    (hexact : d h.location r.location = cluster_radius)
    (hnoCloser : ∀ x ∈ st.hotspots, cluster_radius ≤ d x.location r.location) :
    ∃ h0 ∈ st.hotspots, d h0.location r.location = cluster_radius ∧
      aggregate d now st r =
        { st with hotspots := st.hotspots.map (absorbUpdate h0.id r.noise_db now) } := by
  rcases hq : findNearest d cluster_radius st.hotspots r.location with _ | h0
  · exfalso
    have := (findNearest_eq_none_iff d cluster_radius st.hotspots r.location).mp hq h hmem
    exact lt_irrefl _ (hexact ▸ this)
  · obtain ⟨h0mem, h0le, -⟩ :=
      findNearest_eq_some d cluster_radius st.hotspots r.location h0 hq
    exact ⟨h0, h0mem, le_antisymm h0le (hnoCloser h0 h0mem), by simp [aggregate, hq]⟩

/-- Witness for C3 at a concrete store whose single hotspot is exactly at
the cluster radius from the report. -/
theorem C3_boundary_report_is_absorbed_witness :
    ((⟨0, ⟨3/100, 1/100⟩, 50, 1, 0, 0⟩ : Hotspot) ∈
        (⟨[⟨0, ⟨3/100, 1/100⟩, 50, 1, 0, 0⟩], 1⟩ : State).hotspots) ∧
    dSq (Coord.mk (3/100) (1/100)) (Report.location ⟨0, 0, 80, "traffic"⟩) = cluster_radius ∧
    (∀ x ∈ (⟨[⟨0, ⟨3/100, 1/100⟩, 50, 1, 0, 0⟩], 1⟩ : State).hotspots,
        cluster_radius ≤ dSq x.location (Report.location ⟨0, 0, 80, "traffic"⟩)) ∧
    (∃ h0 ∈ (⟨[⟨0, ⟨3/100, 1/100⟩, 50, 1, 0, 0⟩], 1⟩ : State).hotspots,
      dSq h0.location (Report.location ⟨0, 0, 80, "traffic"⟩) = cluster_radius ∧
      aggregate dSq 3 ⟨[⟨0, ⟨3/100, 1/100⟩, 50, 1, 0, 0⟩], 1⟩ ⟨0, 0, 80, "traffic"⟩ =
        { (⟨[⟨0, ⟨3/100, 1/100⟩, 50, 1, 0, 0⟩], 1⟩ : State) with
            hotspots := (⟨[⟨0, ⟨3/100, 1/100⟩, 50, 1, 0, 0⟩], 1⟩ : State).hotspots.map
              (absorbUpdate h0.id 80 3) }) :=
  ⟨by simp, by norm_num [dSq, cluster_radius, Report.location, storedPoint],
    by norm_num [dSq, cluster_radius, Report.location, storedPoint],
    C3_boundary_report_is_absorbed dSq 3 ⟨[⟨0, ⟨3/100, 1/100⟩, 50, 1, 0, 0⟩], 1⟩
      ⟨0, 0, 80, "traffic"⟩ ⟨0, ⟨3/100, 1/100⟩, 50, 1, 0, 0⟩
      (by simp) (by norm_num [dSq, cluster_radius, Report.location, storedPoint])
      (by norm_num [dSq, cluster_radius, Report.location, storedPoint])⟩

/-- C6 counterexample: two stored hotspots are exactly equidistant from the
query point and both within the radius, the one with the larger id lying
earlier in the table; the nearest-hotspot query returns the larger id, not
the smaller one, because `ORDER BY ST_Distance ... LIMIT 1` has no
tie-breaking key. -/
theorem C6_tie_returns_larger_id_cex :
    dSq (Coord.mk 0 (1/2000)) ⟨0, 0⟩ = dSq (Coord.mk (1/2000) 0) ⟨0, 0⟩ ∧
    dSq (Coord.mk (1/2000) 0) ⟨0, 0⟩ ≤ cluster_radius ∧
    (1 : ℕ) < 2 ∧
    findNearest dSq cluster_radius
        [⟨2, ⟨0, 1/2000⟩, 50, 1, 0, 0⟩, ⟨1, ⟨1/2000, 0⟩, 50, 1, 0, 0⟩] ⟨0, 0⟩ =
      some ⟨2, ⟨0, 1/2000⟩, 50, 1, 0, 0⟩ := by
  norm_num [findNearest, pickMin, dSq, cluster_radius, List.filter_cons]

/-- C6 as amended: the query returns none exactly when no hotspot lies
within the radius; a returned hotspot is stored, within the radius, and at
minimal distance among in-radius hotspots — but an exact tie is resolved by
the store's enumeration order, not by the smaller id. -/
theorem C6_findNearest_characterisation (d : Coord → Coord → ℚ) (radius : ℚ)
    (hs : List Hotspot) (p : Coord) :
    (findNearest d radius hs p = none ↔ ∀ h ∈ hs, radius < d h.location p) ∧
    (∀ h0, findNearest d radius hs p = some h0 →
      h0 ∈ hs ∧ d h0.location p ≤ radius ∧
        ∀ x ∈ hs, d x.location p ≤ radius → d h0.location p ≤ d x.location p) :=
  ⟨findNearest_eq_none_iff d radius hs p,
    fun h0 hq => findNearest_eq_some d radius hs p h0 hq⟩

/-- Witness for the amended C6 statement on a concrete store. -/
theorem C6_findNearest_characterisation_witness :
    findNearest dSq cluster_radius [⟨5, ⟨0, 1/2000⟩, 40, 1, 0, 0⟩] ⟨0, 0⟩ =
      some ⟨5, ⟨0, 1/2000⟩, 40, 1, 0, 0⟩ ∧
    ((⟨5, ⟨0, 1/2000⟩, 40, 1, 0, 0⟩ : Hotspot) ∈ [(⟨5, ⟨0, 1/2000⟩, 40, 1, 0, 0⟩ : Hotspot)] ∧
      dSq (Coord.mk 0 (1/2000)) ⟨0, 0⟩ ≤ cluster_radius ∧
      ∀ x ∈ [(⟨5, ⟨0, 1/2000⟩, 40, 1, 0, 0⟩ : Hotspot)],
        dSq x.location ⟨0, 0⟩ ≤ cluster_radius →
          dSq (Coord.mk 0 (1/2000)) ⟨0, 0⟩ ≤ dSq x.location ⟨0, 0⟩) :=
  ⟨by norm_num [findNearest, pickMin, dSq, cluster_radius, List.filter_cons],
    (C6_findNearest_characterisation dSq cluster_radius
        [⟨5, ⟨0, 1/2000⟩, 40, 1, 0, 0⟩] ⟨0, 0⟩).2 ⟨5, ⟨0, 1/2000⟩, 40, 1, 0, 0⟩
      (by norm_num [findNearest, pickMin, dSq, cluster_radius, List.filter_cons])⟩

/-- C8: when the trigger absorbs a report into an existing hotspot, no row
is added or removed and the id supply is untouched; every row keeps its id,
its centroid (the founding report's position, never recomputed) and its
creation time; rows other than the absorbing one are completely unchanged,
so an absorb can only alter `avg_noise_db`, `report_count` and
`updated_at` of the matched hotspot. -/
theorem C8_absorb_frame (d : Coord → Coord → ℚ) (now : ℕ) (st : State)
    (r : Report) (h : Hotspot)
    (hfind : findNearest d cluster_radius st.hotspots r.location = some h) :
    (aggregate d now st r).nextId = st.nextId ∧
    (aggregate d now st r).hotspots = st.hotspots.map (absorbUpdate h.id r.noise_db now) ∧
    (∀ x : Hotspot, (absorbUpdate h.id r.noise_db now x).id = x.id ∧
      (absorbUpdate h.id r.noise_db now x).location = x.location ∧
      (absorbUpdate h.id r.noise_db now x).created_at = x.created_at) ∧
    (∀ x : Hotspot, x.id ≠ h.id → absorbUpdate h.id r.noise_db now x = x) := by
  refine ⟨by simp [aggregate, hfind], by simp [aggregate, hfind], fun x => ?_, fun x hx => ?_⟩
  · by_cases hid : x.id = h.id <;> simp [absorbUpdate, hid]
  · simp [absorbUpdate, hx]

/-- Witness for C8 at a concrete store and report. -/
theorem C8_absorb_frame_witness :
    findNearest dSq cluster_radius
        (⟨[⟨0, ⟨0, 0⟩, 50, 1, 0, 0⟩], 1⟩ : State).hotspots
        (Report.location ⟨0, 0, 60, "traffic"⟩) = some ⟨0, ⟨0, 0⟩, 50, 1, 0, 0⟩ ∧
    ((aggregate dSq 5 ⟨[⟨0, ⟨0, 0⟩, 50, 1, 0, 0⟩], 1⟩ ⟨0, 0, 60, "traffic"⟩).nextId =
        (⟨[⟨0, ⟨0, 0⟩, 50, 1, 0, 0⟩], 1⟩ : State).nextId ∧
      (aggregate dSq 5 ⟨[⟨0, ⟨0, 0⟩, 50, 1, 0, 0⟩], 1⟩ ⟨0, 0, 60, "traffic"⟩).hotspots =
        (⟨[⟨0, ⟨0, 0⟩, 50, 1, 0, 0⟩], 1⟩ : State).hotspots.map (absorbUpdate 0 60 5) ∧
      (∀ x : Hotspot, (absorbUpdate 0 60 5 x).id = x.id ∧
        (absorbUpdate 0 60 5 x).location = x.location ∧
        (absorbUpdate 0 60 5 x).created_at = x.created_at) ∧
      (∀ x : Hotspot, x.id ≠ 0 → absorbUpdate 0 60 5 x = x)) :=
  ⟨by norm_num [findNearest, pickMin, dSq, cluster_radius, List.filter_cons,
      Report.location, storedPoint],
    C8_absorb_frame dSq 5 ⟨[⟨0, ⟨0, 0⟩, 50, 1, 0, 0⟩], 1⟩ ⟨0, 0, 60, "traffic"⟩
      ⟨0, ⟨0, 0⟩, 50, 1, 0, 0⟩
      (by norm_num [findNearest, pickMin, dSq, cluster_radius, List.filter_cons,
        Report.location, storedPoint])⟩

/-- Ghost-instrumented row update: the trigger's row update, paired with
recording the absorbed decibel value on the row's ghost list. -/
def absorbUpdateG (hid : ℕ) (v : ℚ) (now : ℕ) (g : Hotspot × List ℚ) : Hotspot × List ℚ :=
  if g.1.id = hid then (absorbUpdate hid v now g.1, g.2 ++ [v]) else g

/-- Ghost-instrumented trigger state: each hotspot row carries the list of
decibel values absorbed into it. -/
structure GState where
  ghotspots : List (Hotspot × List ℚ)
  nextId : ℕ

/-- Forgetting the ghost lists recovers the trigger state. -/
def GState.proj (gst : GState) : State := ⟨gst.ghotspots.map Prod.fst, gst.nextId⟩

/-- Ghost-instrumented version of the trigger body, mirroring `aggregate`
on the row components. -/
def aggregateG (d : Coord → Coord → ℚ) (now : ℕ) (gst : GState) (r : Report) : GState :=
  match findNearest d cluster_radius (gst.ghotspots.map Prod.fst) r.location with
  | some h => { gst with ghotspots := gst.ghotspots.map (absorbUpdateG h.id r.noise_db now) }
  | none =>
      { ghotspots := gst.ghotspots ++
          [(⟨gst.nextId, r.location, r.noise_db, 1, now, now⟩, [r.noise_db])],
        nextId := gst.nextId + 1 }

/-- Ghost-instrumented run of the trigger over a list of reports. -/
def runReportsFromG (d : Coord → Coord → ℚ) : GState → ℕ → List Report → GState
  | gst, _, [] => gst
  | gst, t, r :: rs => runReportsFromG d (aggregateG d t gst r) (t + 1) rs

/-- Ghost-instrumented run from the empty table. -/
def runReportsG (d : Coord → Coord → ℚ) (rs : List Report) : GState :=
  runReportsFromG d ⟨[], 0⟩ 0 rs

/-- The ghost update projects to the trigger's row update. -/
lemma absorbUpdateG_fst (hid : ℕ) (v : ℚ) (now : ℕ) (g : Hotspot × List ℚ) :
    (absorbUpdateG hid v now g).1 = absorbUpdate hid v now g.1 := by
  by_cases hc : g.1.id = hid
  · simp [absorbUpdateG, hc]
  · simp [absorbUpdateG, absorbUpdate, hc]

/-- One ghost step projects to one trigger step. -/
lemma aggregateG_proj (d : Coord → Coord → ℚ) (now : ℕ) (gst : GState) (r : Report) :
    (aggregateG d now gst r).proj = aggregate d now gst.proj r := by
  unfold aggregateG aggregate GState.proj
  rcases hq : findNearest d cluster_radius (gst.ghotspots.map Prod.fst) r.location with _ | h
  · simp
  · simp [List.map_map, Function.comp_def, absorbUpdateG_fst]

/-- A ghost run projects to the trigger run. -/
lemma runReportsFromG_proj (d : Coord → Coord → ℚ) :
    ∀ (rs : List Report) (gst : GState) (t : ℕ),
      (runReportsFromG d gst t rs).proj = runReportsFrom d gst.proj t rs := by
  intro rs
  induction rs with
  | nil => intro gst t; rfl
  | cons r rs ih =>
      intro gst t
      rw [runReportsFromG, runReportsFrom, ih, aggregateG_proj]

/-- The per-row running-mean invariant: the stored count is the number of
absorbed values, at least one value has been absorbed, and the stored
average times the count is the sum of the absorbed values. -/
def GoodRow (g : Hotspot × List ℚ) : Prop :=
  g.1.report_count = g.2.length ∧ 1 ≤ g.2.length ∧
    g.1.avg_noise_db * (g.2.length : ℚ) = g.2.sum

/-- The trigger's mean update preserves the running-mean invariant. -/
lemma GoodRow_update (hid : ℕ) (v : ℚ) (now : ℕ) (g : Hotspot × List ℚ)
    (hg : GoodRow g) : GoodRow (absorbUpdateG hid v now g) := by
  by_cases hc : g.1.id = hid
  · obtain ⟨hcnt, hlen, havg⟩ := hg
    have hden : ((g.2.length : ℚ) + 1) ≠ 0 := by positivity
    refine ⟨?_, ?_, ?_⟩
    · simp [absorbUpdateG, absorbUpdate, hc, hcnt]
    · simp [absorbUpdateG, hc]
    · simp only [absorbUpdateG, absorbUpdate, hc, if_pos, if_true, List.length_append,
        List.sum_append, List.length_cons, List.length_nil, List.sum_cons, List.sum_nil]
      rw [hcnt]
      push_cast
      rw [div_mul_cancel₀ _ hden, havg]
      ring
  · simpa [absorbUpdateG, hc] using hg

/-- One ghost trigger step preserves the running-mean invariant on every
row. -/
lemma aggregateG_good (d : Coord → Coord → ℚ) (now : ℕ) (gst : GState) (r : Report)
    (hinv : ∀ g ∈ gst.ghotspots, GoodRow g) :
    ∀ g ∈ (aggregateG d now gst r).ghotspots, GoodRow g := by
  intro g hg
  unfold aggregateG at hg
  rcases hq : findNearest d cluster_radius (gst.ghotspots.map Prod.fst) r.location with _ | h
  · rw [hq] at hg
    simp only [List.mem_append, List.mem_singleton] at hg
    rcases hg with hg | hg
    · exact hinv g hg
    · subst hg
      refine ⟨rfl, le_refl 1, by norm_num⟩
  · rw [hq] at hg
    simp only [List.mem_map] at hg
    obtain ⟨g0, hg0, rfl⟩ := hg
    exact GoodRow_update h.id r.noise_db now g0 (hinv g0 hg0)

/-- A whole ghost run preserves the running-mean invariant on every row. -/
lemma runReportsFromG_good (d : Coord → Coord → ℚ) :
    ∀ (rs : List Report) (gst : GState) (t : ℕ),
      (∀ g ∈ gst.ghotspots, GoodRow g) →
      ∀ g ∈ (runReportsFromG d gst t rs).ghotspots, GoodRow g := by
  intro rs
  induction rs with
  | nil => intro gst t hinv; exact hinv
  | cons r rs ih =>
      intro gst t hinv
      rw [runReportsFromG]
      exact ih _ _ (aggregateG_good d t gst r hinv)

/-- Running the trigger over same-coordinate reports against a table whose
single hotspot sits at that coordinate keeps a single hotspot and
accumulates count and sum. -/
lemma runReportsFrom_single_coord (d : Coord → Coord → ℚ) (la lo : ℚ)
    (hd : d (storedPoint la lo) (storedPoint la lo) = 0) :
    ∀ (vs : List ℚ) (h : Hotspot) (n t : ℕ), h.location = storedPoint la lo →
      ∃ h2 : Hotspot,
        (runReportsFrom d ⟨[h], n⟩ t
            (vs.map fun v => ⟨la, lo, v, "other"⟩)).hotspots = [h2] ∧
        h2.report_count = h.report_count + vs.length ∧
        h2.avg_noise_db * ((h.report_count : ℚ) + (vs.length : ℚ)) =
          h.avg_noise_db * (h.report_count : ℚ) + vs.sum ∧
        h2.location = storedPoint la lo := by
  intro vs
  induction vs with
  | nil =>
      intro h n t hloc
      exact ⟨h, rfl, by simp, by simp, hloc⟩
  | cons v vs ih =>
      intro h n t hloc
      have hdist : d h.location (Report.location ⟨la, lo, v, "other"⟩) ≤ cluster_radius := by
        have hrp : Report.location ⟨la, lo, v, "other"⟩ = storedPoint la lo := rfl
        rw [hrp, hloc, hd, cluster_radius]
        norm_num
      have hfind : findNearest d cluster_radius [h]
          (Report.location ⟨la, lo, v, "other"⟩) = some h := by
        simp [findNearest, List.filter_cons, List.filter_nil, decide_eq_true_eq,
          hdist, pickMin]
      have hstep : aggregate d t ⟨[h], n⟩ ⟨la, lo, v, "other"⟩ =
          ⟨[{ h with
                avg_noise_db :=
                  (h.avg_noise_db * (h.report_count : ℚ) + v) / ((h.report_count : ℚ) + 1),
                report_count := h.report_count + 1,
                updated_at := t }], n⟩ := by
        simp [aggregate, hfind, absorbUpdate]
      obtain ⟨h2, hrun, hcnt, havg, hloc2⟩ :=
        ih { h with
              avg_noise_db :=
                (h.avg_noise_db * (h.report_count : ℚ) + v) / ((h.report_count : ℚ) + 1),
              report_count := h.report_count + 1,
              updated_at := t } n (t + 1) hloc
      refine ⟨h2, ?_, ?_, ?_, hloc2⟩
      · simp only [List.map_cons]
        rw [runReportsFrom, hstep]
        exact hrun
      · simp only [List.length_cons]
        simp at hcnt
        omega
      · have hden : ((h.report_count : ℚ) + 1) ≠ 0 := by positivity
        simp only [List.length_cons, List.sum_cons]
        simp only [] at havg
        push_cast at havg ⊢
        rw [div_mul_cancel₀ _ hden] at havg
        have hA : (h.report_count : ℚ) + ((vs.length : ℚ) + 1) =
            ((h.report_count : ℚ) + 1) + (vs.length : ℚ) := by ring
        rw [hA]
        linarith [havg]

/-- C1: in any reachable table, every hotspot's `report_count` equals the
number of reports absorbed into it (hence is at least 1) and
`avg_noise_db` times that count equals the sum of the absorbed decibel
values, i.e. the average is their exact arithmetic mean (witnessed by the
ghost-instrumented run, which projects to the trigger run); moreover a
sequence of same-coordinate reports into an empty table yields a single
hotspot whose count is the number of reports and whose average is the
exact mean of their decibel values. -/
theorem C1_running_mean_and_count (d : Coord → Coord → ℚ) (rs : List Report)
    (p : Coord) (vs : List ℚ)
    (hd : d (storedPoint p.lat p.lon) (storedPoint p.lat p.lon) = 0) (hne : vs ≠ []) :
    (∀ g ∈ (runReportsG d rs).ghotspots,
        g.1.report_count = g.2.length ∧ 1 ≤ g.1.report_count ∧
        g.1.avg_noise_db * (g.2.length : ℚ) = g.2.sum) ∧
    (runReportsG d rs).proj = runReports d rs ∧
    (∃ h2 : Hotspot,
        (runReports d (vs.map fun v => ⟨p.lat, p.lon, v, "other"⟩)).hotspots = [h2] ∧
        h2.report_count = vs.length ∧
        h2.avg_noise_db = vs.sum / (vs.length : ℚ) ∧
        h2.location = storedPoint p.lat p.lon) := by
  refine ⟨?_, ?_, ?_⟩
  · intro g hg
    obtain ⟨h1, hl, h3⟩ := runReportsFromG_good d rs ⟨[], 0⟩ 0 (by simp) g hg
    exact ⟨h1, by rw [h1]; exact hl, h3⟩
  · exact runReportsFromG_proj d rs ⟨[], 0⟩ 0
  · obtain ⟨v, vs', rfl⟩ := List.exists_cons_of_ne_nil hne
    have hfirst : aggregate d 0 ⟨[], 0⟩ ⟨p.lat, p.lon, v, "other"⟩ =
        ⟨[⟨0, storedPoint p.lat p.lon, v, 1, 0, 0⟩], 1⟩ := rfl
    obtain ⟨h2, hrun, hcnt, havg, hloc⟩ :=
      runReportsFrom_single_coord d p.lat p.lon hd vs'
        ⟨0, storedPoint p.lat p.lon, v, 1, 0, 0⟩ 1 1 rfl
    refine ⟨h2, ?_, ?_, ?_, hloc⟩
    · simpa [runReports, List.map_cons, runReportsFrom, hfirst] using hrun
    · simp only [List.length_cons]
      simp at hcnt
      omega
    · have hlen : (((v :: vs').length : ℚ)) ≠ 0 := by
        push_cast [List.length_cons]
        positivity
      rw [eq_div_iff hlen]
      simp only [List.sum_cons, List.length_cons]
      simp at havg
      push_cast
      have hc : ((vs'.length : ℚ) + 1) = 1 + (vs'.length : ℚ) := by ring
      rw [hc]
      linarith [havg]

/-- Witness for C1: two reports with values 1 and 2 at the origin produce a
single hotspot with count 2 and average 3/2. -/
theorem C1_running_mean_and_count_witness :
    dSq (storedPoint 0 0) (storedPoint 0 0) = 0 ∧ ([(1 : ℚ), 2] ≠ []) ∧
    (∃ h2 : Hotspot,
        (runReports dSq ([(1 : ℚ), 2].map fun v =>
            ⟨(Coord.mk 0 0).lat, (Coord.mk 0 0).lon, v, "other"⟩)).hotspots = [h2] ∧
        h2.report_count = [(1 : ℚ), 2].length ∧
        h2.avg_noise_db = [(1 : ℚ), 2].sum / (([(1 : ℚ), 2].length : ℕ) : ℚ) ∧
        h2.location = storedPoint 0 0) :=
  ⟨by norm_num [dSq], by simp,
    (C1_running_mean_and_count dSq [] ⟨0, 0⟩ [1, 2]
      (by norm_num [dSq]) (by simp)).2.2⟩

/-- The noise types admitted by the `reports` table CHECK constraint. -/
def validNoiseTypes : List String :=
  ["traffic", "construction", "events", "industrial", "other"]

/-- The row CHECK constraints of the `reports` table: `noise_db` between 0
and 120, and `noise_type` in the fixed enumeration. Latitude and
longitude are declared NOT NULL but carry no range constraint. -/
def reportChecksPass (r : Report) : Bool :=
  decide (0 ≤ r.noise_db) && decide (r.noise_db ≤ 120) &&
    decide (r.noise_type ∈ validNoiseTypes)

/-- An INSERT into `reports`: the row is accepted only when its CHECK
constraints pass, and on success the AFTER INSERT trigger fires once; a
failed insert yields none — the row is not persisted and the trigger never
runs. -/
def insertReport (d : Coord → Coord → ℚ) (now : ℕ) (st : State) (r : Report) :
    Option State :=
  if reportChecksPass r then some (aggregate d now st r) else none

/-- C5 counterexample: a report with latitude 200 and longitude 500 — both
far outside the claimed valid ranges — is not rejected: it passes every
check in the ingestion path, is persisted, and reaches the trigger; the
generated geography column silently coerces the point into range, so the
trigger founds a hotspot at the coerced centroid (-20, 140) instead of
rejecting the submission. -/
theorem C5_out_of_range_coordinates_accepted_cex :
    ((90 : ℚ) < 200) ∧ ((180 : ℚ) < 500) ∧
    insertReport dSq 0 ⟨[], 0⟩ ⟨200, 500, 50, "traffic"⟩ =
      some (aggregate dSq 0 ⟨[], 0⟩ ⟨200, 500, 50, "traffic"⟩) ∧
    storedPoint 200 500 = ⟨-20, 140⟩ ∧
    (aggregate dSq 0 ⟨[], 0⟩ ⟨200, 500, 50, "traffic"⟩).hotspots =
      [⟨0, ⟨-20, 140⟩, 50, 1, 0, 0⟩] := by
  have hsp : storedPoint 200 500 = ⟨-20, 140⟩ := by
    norm_num [storedPoint, latitudeDegreesNormalize, longitudeDegreesNormalize,
      ieeeRem, roundHalfEven]
  refine ⟨by norm_num, by norm_num, ?_, hsp, ?_⟩
  · norm_num [insertReport, reportChecksPass, validNoiseTypes, Bool.and_eq_true,
      decide_eq_true_eq]
  · have hagg : (aggregate dSq 0 ⟨[], 0⟩ ⟨200, 500, 50, "traffic"⟩).hotspots =
        [⟨0, storedPoint 200 500, 50, 1, 0, 0⟩] := rfl
    rw [hagg, hsp]

/-- C5 as amended: ingestion rejects exactly the submissions whose decibel
value lies outside [0, 120] or whose noise type is not in the fixed
enumeration (enforced by the database CHECK constraints, so a rejected
report is never persisted and the trigger never runs — in particular any
report with decibels 150); submissions with out-of-range latitude or
longitude are not rejected: they are accepted, persisted, and reach the
trigger, the generated geography location column silently coercing the
point into range instead of raising an error. -/
theorem C5_ingestion_validation (d : Coord → Coord → ℚ) (now : ℕ)
    (st : State) (r : Report) :
    (insertReport d now st r = none ↔
      ¬ (0 ≤ r.noise_db ∧ r.noise_db ≤ 120 ∧ r.noise_type ∈ validNoiseTypes)) ∧
    (insertReport d now st { r with noise_db := 150 } = none) ∧
    (0 ≤ r.noise_db → r.noise_db ≤ 120 → r.noise_type ∈ validNoiseTypes →
      insertReport d now st r = some (aggregate d now st r)) := by
  refine ⟨?_, ?_, fun h1 h2 h3 => ?_⟩
  · simp [insertReport, reportChecksPass, Bool.and_eq_true, decide_eq_true_eq,
      and_assoc]
  · norm_num [insertReport, reportChecksPass, Bool.and_eq_true, decide_eq_true_eq]
  · simp [insertReport, reportChecksPass, Bool.and_eq_true, decide_eq_true_eq,
      h1, h2, h3]

/-- Witness for the amended C5 statement: an in-range report is accepted
and aggregated. -/
theorem C5_ingestion_validation_witness :
    (0 ≤ (60 : ℚ)) ∧ ((60 : ℚ) ≤ 120) ∧ ("traffic" ∈ validNoiseTypes) ∧
    insertReport dSq 0 ⟨[], 0⟩ ⟨0, 0, 60, "traffic"⟩ =
      some (aggregate dSq 0 ⟨[], 0⟩ ⟨0, 0, 60, "traffic"⟩) :=
  ⟨by norm_num, by norm_num, by simp [validNoiseTypes],
    (C5_ingestion_validation dSq 0 ⟨[], 0⟩ ⟨0, 0, 60, "traffic"⟩).2.2
      (by norm_num) (by norm_num) (by simp [validNoiseTypes])⟩

/-- The comparison `hotspots.getAll` sorts by: severity (`avg_noise_db`)
descending. -/
def severityDescBool (a b : Hotspot) : Bool :=
  decide (b.avg_noise_db ≤ a.avg_noise_db)

/-- The `hotspots.getAll(limit?)` query of `lib/supabase.ts`: all rows
ordered by `avg_noise_db` descending, the optional row limit being applied
only when it is truthy (a limit of 0 is falsy in the client code and is
ignored). -/
def getAll (hs : List Hotspot) (limit : Option ℕ) : List Hotspot :=
  match limit with
  | none => hs.mergeSort severityDescBool
  | some n =>
      if n = 0 then hs.mergeSort severityDescBool
      else (hs.mergeSort severityDescBool).take n

/-- The ordering claimed by the spec for `listBySeverityDesc`: severity
descending, ties by report count descending, remaining ties by id
ascending. -/
def specSeverityOrder (a b : Hotspot) : Prop :=
  b.avg_noise_db < a.avg_noise_db ∨
    (a.avg_noise_db = b.avg_noise_db ∧
      (b.report_count < a.report_count ∨
        (a.report_count = b.report_count ∧ a.id ≤ b.id)))

/-- C7 counterexample: two hotspots with equal severity but report counts
1 and 2, stored in that order, are returned in store order — the claimed
tie-break by descending report count does not hold, since the query orders
by `avg_noise_db` only. -/
theorem C7_no_tie_break_cex :
    getAll [⟨1, ⟨0, 0⟩, 50, 1, 0, 0⟩, ⟨2, ⟨0, 0⟩, 50, 2, 0, 0⟩] none =
      [⟨1, ⟨0, 0⟩, 50, 1, 0, 0⟩, ⟨2, ⟨0, 0⟩, 50, 2, 0, 0⟩] ∧
    ¬ List.Pairwise specSeverityOrder
        (getAll [⟨1, ⟨0, 0⟩, 50, 1, 0, 0⟩, ⟨2, ⟨0, 0⟩, 50, 2, 0, 0⟩] none) := by
  have hs : getAll [⟨1, ⟨0, 0⟩, 50, 1, 0, 0⟩, ⟨2, ⟨0, 0⟩, 50, 2, 0, 0⟩] none =
      [⟨1, ⟨0, 0⟩, 50, 1, 0, 0⟩, ⟨2, ⟨0, 0⟩, 50, 2, 0, 0⟩] := by
    apply List.mergeSort_of_sorted
    simp [List.pairwise_cons, severityDescBool]
  refine ⟨hs, ?_⟩
  rw [hs]
  simp [List.pairwise_cons, specSeverityOrder]

/-- C7 as amended: `getAll` returns the hotspots sorted by `avg_noise_db`
descending only; equal severities keep the store's order (no tie-break on
report count or id); with no limit the result is a permutation of the
store, and a nonzero limit takes the first rows of that same ordering. -/
theorem C7_getAll_sorted_by_severity_only (hs : List Hotspot) (limit : Option ℕ) :
    List.Pairwise (fun a b => b.avg_noise_db ≤ a.avg_noise_db) (getAll hs limit) ∧
    (getAll hs none).Perm hs ∧
    (∀ n : ℕ, n ≠ 0 → getAll hs (some n) = (getAll hs none).take n) := by
  have hsorted : List.Pairwise (fun a b => b.avg_noise_db ≤ a.avg_noise_db)
      (hs.mergeSort severityDescBool) := by
    have hpw : (hs.mergeSort severityDescBool).Pairwise
        (fun a b => severityDescBool a b = true) := by
      apply List.sorted_mergeSort
      · intro a b c h1 h2
        simp only [severityDescBool, decide_eq_true_eq] at h1 h2 ⊢
        exact le_trans h2 h1
      · intro a b
        simp only [severityDescBool, Bool.or_eq_true, decide_eq_true_eq]
        exact le_total b.avg_noise_db a.avg_noise_db
    exact hpw.imp (fun h => by simpa [severityDescBool] using h)
  refine ⟨?_, List.mergeSort_perm hs severityDescBool, fun n hn => by simp [getAll, hn]⟩
  cases limit with
  | none => exact hsorted
  | some n =>
      by_cases hn : n = 0
      · simpa [getAll, hn] using hsorted
      · simp only [getAll, if_neg hn]
        exact hsorted.sublist (List.take_sublist n _)

/-- The two-argument arctangent as computed by `Math.atan2(y, x)`,
modelled over the reals by its standard case split. -/
noncomputable def atan2 (y x : ℝ) : ℝ :=
  if 0 < x then Real.arctan (y / x)
  else if x < 0 ∧ 0 ≤ y then Real.arctan (y / x) + Real.pi
  else if x < 0 then Real.arctan (y / x) - Real.pi
  else if 0 < y then Real.pi / 2
  else if y < 0 then -(Real.pi / 2)
  else 0

/-- The intermediate `a` of `locationUtils.calculateDistance`:
sin²(dLat/2) + cos(lat1·π/180)·cos(lat2·π/180)·sin²(dLon/2), with
dLat = (lat2-lat1)·π/180 and dLon = (lon2-lon1)·π/180. -/
noncomputable def haversineA (lat1 lon1 lat2 lon2 : ℝ) : ℝ :=
  Real.sin ((lat2 - lat1) * Real.pi / 180 / 2) *
      Real.sin ((lat2 - lat1) * Real.pi / 180 / 2) +
    Real.cos (lat1 * Real.pi / 180) * Real.cos (lat2 * Real.pi / 180) *
      Real.sin ((lon2 - lon1) * Real.pi / 180 / 2) *
      Real.sin ((lon2 - lon1) * Real.pi / 180 / 2)

/-- `locationUtils.calculateDistance`: Haversine distance in kilometres
with Earth radius 6371, via `c = 2·atan2(√a, √(1-a))`. -/
noncomputable def calculateDistance (lat1 lon1 lat2 lon2 : ℝ) : ℝ :=
  6371 * (2 * atan2 (Real.sqrt (haversineA lat1 lon1 lat2 lon2))
    (Real.sqrt (1 - haversineA lat1 lon1 lat2 lon2)))

/-- The haversine intermediate vanishes on coincident points. -/
lemma haversineA_self (lat lon : ℝ) : haversineA lat lon lat lon = 0 := by
  simp [haversineA]

/-- The haversine intermediate is symmetric in its two points. -/
lemma haversineA_comm (lat1 lon1 lat2 lon2 : ℝ) :
    haversineA lat1 lon1 lat2 lon2 = haversineA lat2 lon2 lat1 lon1 := by
  have key : ∀ u v : ℝ,
      Real.sin ((u - v) * Real.pi / 180 / 2) = -Real.sin ((v - u) * Real.pi / 180 / 2) := by
    intro u v
    have hneg : (u - v) * Real.pi / 180 / 2 = -((v - u) * Real.pi / 180 / 2) := by ring
    rw [hneg, Real.sin_neg]
  unfold haversineA
  rw [key lat2 lat1, key lon2 lon1]
  ring

/-- C9: the distance function vanishes on every coincident pair of
coordinates, and is symmetric in its two coordinate arguments. -/
theorem C9_haversine_self_zero_and_symm :
    (∀ lat lon : ℝ, calculateDistance lat lon lat lon = 0) ∧
    (∀ lat1 lon1 lat2 lon2 : ℝ,
      calculateDistance lat1 lon1 lat2 lon2 = calculateDistance lat2 lon2 lat1 lon1) := by
  constructor
  · intro lat lon
    have h1 : Real.sqrt (1 - 0) = 1 := by rw [sub_zero, Real.sqrt_one]
    rw [calculateDistance, haversineA_self, Real.sqrt_zero, h1]
    have h2 : atan2 0 1 = 0 := by
      rw [atan2, if_pos (by norm_num : (0 : ℝ) < 1)]
      simp
    rw [h2]
    ring
  · intro lat1 lon1 lat2 lon2
    rw [calculateDistance, calculateDistance, haversineA_comm]

/-- Summing the squares of a run of zero samples leaves the accumulator
unchanged. -/
lemma foldl_sq_replicate_zero :
    ∀ (n : ℕ) (acc : ℝ),
      (List.replicate n (0 : ℝ)).foldl (fun a s => a + s * s) acc = acc := by
  intro n
  induction n with
  | zero => intro acc; rfl
  | succ k ih =>
      intro acc
      rw [List.replicate_succ, List.foldl_cons]
      simpa using ih (acc + 0 * 0)

/-- `audioUtils.calculateDbFromAudio`: 0 for a missing or empty sample
array; otherwise the clamp `max(0, min(120, |20·log10(rms/32767)|))` of
the RMS level. The zero-RMS branch returns 120 directly: there the
floating-point evaluation is `20·log10(0) = -Infinity`, whose absolute
value is `Infinity`, and the clamp yields `min(120, Infinity) = 120` — the
branch records that value so that the real-valued model agrees with the
IEEE evaluation of the code. -/
noncomputable def calculateDbFromAudio (audioData : Option (List ℝ)) : ℝ :=
  match audioData with
  | none => 0
  | some l =>
      if l.length = 0 then 0
      else
        if Real.sqrt ((l.foldl (fun acc s => acc + s * s) 0) / (l.length : ℝ)) = 0 then 120
        else
          max 0 (min 120
            |20 * (Real.log (Real.sqrt ((l.foldl (fun acc s => acc + s * s) 0) /
              (l.length : ℝ)) / 32767) / Real.log 10)|)

/-- C10: the computed level always lies in [0, 120]; a missing or empty
array gives exactly 0; and a nonempty all-zero (silent) array gives 120,
the clamp of the absolute value of the negatively infinite logarithm. -/
theorem C10_db_from_audio_clamped :
    (∀ o : Option (List ℝ),
        0 ≤ calculateDbFromAudio o ∧ calculateDbFromAudio o ≤ 120) ∧
    calculateDbFromAudio none = 0 ∧
    calculateDbFromAudio (some []) = 0 ∧
    (∀ n : ℕ, calculateDbFromAudio (some (List.replicate (n + 1) (0 : ℝ))) = 120) := by
  refine ⟨?_, by simp [calculateDbFromAudio], by simp [calculateDbFromAudio], ?_⟩
  · intro o
    cases o with
    | none => norm_num [calculateDbFromAudio]
    | some l =>
        by_cases hl : l.length = 0
        · simp [calculateDbFromAudio, hl]
        · by_cases hr : Real.sqrt ((l.foldl (fun acc s => acc + s * s) 0) / (l.length : ℝ)) = 0
          · simp [calculateDbFromAudio, hl, hr]
          · simp only [calculateDbFromAudio, if_neg hl, if_neg hr]
            constructor
            · exact le_max_left 0 _
            · exact max_le (by norm_num) (min_le_left _ _)
  · intro n
    have hfold := foldl_sq_replicate_zero (n + 1) 0
    simp [calculateDbFromAudio, hfold]

/-- Witness for the amended C7 statement: a nonzero limit takes a prefix
of the severity-sorted store. -/
theorem C7_getAll_sorted_by_severity_only_witness :
    (1 : ℕ) ≠ 0 ∧
    getAll [⟨1, ⟨0, 0⟩, 70, 1, 0, 0⟩, ⟨2, ⟨0, 0⟩, 80, 1, 0, 0⟩] (some 1) =
      (getAll [⟨1, ⟨0, 0⟩, 70, 1, 0, 0⟩, ⟨2, ⟨0, 0⟩, 80, 1, 0, 0⟩] none).take 1 :=
  ⟨by norm_num,
    (C7_getAll_sorted_by_severity_only
      [⟨1, ⟨0, 0⟩, 70, 1, 0, 0⟩, ⟨2, ⟨0, 0⟩, 80, 1, 0, 0⟩] (some 1)).2.2 1 (by norm_num)⟩
